import Mathlib

/-!
# Formal model of the `etl_weather` pipeline

A shallow embedding, in Lean 4, of the parts of the `etl_weather`
repository that its specification makes claims about:

* `src/etl_weather/transform.py` — the hourly-to-daily aggregation
  pipeline (`_safe_hourly_frame`, `_categorize_pm25`, `run`,
  `run_hourly`);
* `src/etl_weather/report.py` — the report-side PM2.5 classifier
  (`_pm25_category`);
* `src/etl_weather/fetch.py` — raw fetch with offline/fallback modes
  (`run`, `_load_sample`, `_save_json`);
* `src/etl_weather/web.py` — the multi-city comparison endpoint
  (`compare`).

Python floats are modelled as `ℚ` (the numeric literals appearing in
the code are exactly representable); a missing value (`None`/`NaN`) is
modelled as `Option.none`.  JSON documents, as produced by
`json.loads`, are modelled by the inductive type `Json` below, with
objects as association lists in which a duplicated key behaves like a
Python dict insert (last occurrence wins on lookup).
-/

namespace EtlWeather

/-- JSON values as produced by `json.loads`. Objects are association
lists; `dictGet` below gives them Python-dict lookup semantics. -/
inductive Json where
  | null : Json
  | bool : Bool → Json
  | num : ℚ → Json
  | str : String → Json
  | arr : List Json → Json
  | obj : List (String × Json) → Json

mutual

/-- Python `==` on JSON values (used for merge keys): numbers and
booleans compare numerically (`True == 1`), strings by value, lists
elementwise.  Dicts are compared elementwise here (Python dict
equality is order-insensitive, but no merge key in this pipeline is a
dict). -/
def jsonEqb : Json → Json → Bool
  | .null, .null => true
  | .bool a, .bool b => a == b
  | .bool a, .num q => (if a then (1 : ℚ) else 0) == q
  | .num q, .bool a => q == (if a then (1 : ℚ) else 0)
  | .num a, .num b => a == b
  | .str a, .str b => a == b
  | .arr xs, .arr ys => jsonEqbList xs ys
  | .obj xs, .obj ys => jsonEqbKV xs ys
  | _, _ => false

def jsonEqbList : List Json → List Json → Bool
  | [], [] => true
  | x :: xs, y :: ys => jsonEqb x y && jsonEqbList xs ys
  | _, _ => false

def jsonEqbKV : List (String × Json) → List (String × Json) → Bool
  | [], [] => true
  | (k, x) :: xs, (l, y) :: ys => k == l && jsonEqb x y && jsonEqbKV xs ys
  | _, _ => false

end

/-- Python dict lookup on an association list: the last binding of a
key wins, as with repeated keys fed to `json.loads`. -/
def dictGet {α : Type} (kvs : List (String × α)) (k : String) : Option α :=
  match kvs with
  | [] => none
  | p :: rest =>
      match dictGet rest k with
      | some v => some v
      | none => if p.1 = k then some p.2 else none

/-- `d.get(k)` on a JSON value known to be (or required to be) an
object; callers that would raise `AttributeError` in Python on a
non-object guard this with `Json.isObj`. -/
def Json.get : Json → String → Option Json
  | .obj kvs, k => dictGet kvs k
  | _, _ => none

def Json.isObj : Json → Bool
  | .obj _ => true
  | _ => false

def Json.objFields : Json → List (String × Json)
  | .obj kvs => kvs
  | _ => []

/-- Python truthiness of a JSON value (`bool(x)`). -/
def Json.truthy : Json → Bool
  | .null => false
  | .bool b => b
  | .num q => decide (q ≠ 0)
  | .str s => decide (s ≠ "")
  | .arr xs => !xs.isEmpty
  | .obj kvs => !kvs.isEmpty

/-- Errors the transform stage can raise. `missingInput` models the
`FileNotFoundError` raised when a raw file is absent (the spec's
`MissingInputError`); `attrError` models the `AttributeError` Python
raises when `.get` is called on a non-dict; `typeError` models the
`TypeError`/`ValueError` raised when a truthy non-sequence ends up
where a list of timestamps is expected. -/
inductive TErr where
  | missingInput : TErr
  | attrError : TErr
  | typeError : TErr
  deriving DecidableEq, Repr

/-- `times = hourly.get("time", []) or []` followed by `len(times)` /
column use.  A missing or falsy `time` member yields `[]`; a truthy
array yields its elements; a truthy non-array would not survive the
subsequent `len`/`DataFrame` use in Python and is modelled as an
error (scalar broadcasting of stray strings is not modelled; no claim
exercises it). -/
def pyTimes (hourly : List (String × Json)) : Except TErr (List Json) :=
  match dictGet hourly "time" with
  | none => .ok []
  | some v =>
      if v.truthy then
        match v with
        | .arr xs => .ok xs
        | _ => .error .typeError
      else .ok []

/-- A pandas `DataFrame` restricted to what the pipeline uses: an
ordered association of column names to cell lists (Python dict
insertion order). -/
abbrev Frame : Type := List (String × List Json)

/-- Python dict insert: replace in place if the key exists, else
append (dict insertion-order semantics). -/
def dictInsert {α : Type} (d : List (String × α)) (k : String) (v : α) :
    List (String × α) :=
  if d.any (fun p => p.1 = k) then
    d.map (fun p => if p.1 = k then (k, v) else p)
  else d ++ [(k, v)]

/-- The per-field guard of `_safe_hourly_frame`:
`vals = hourly.get(col, [])`; if `vals` is not a list or its length
differs from `n`, it is replaced by `[None] * n`.  (An absent field
defaults to `[]`, a list, which passes the length check only when
`n = 0`, in which case it coincides with `[None] * 0`.) -/
def fieldVals (hourly : List (String × Json)) (n : ℕ) (col : String) :
    List Json :=
  match dictGet hourly col with
  | some (.arr xs) => if xs.length = n then xs else List.replicate n Json.null
  | _ => List.replicate n Json.null

/-- `_safe_hourly_frame(hourly, fields)` from `transform.py`: build a
frame from the `hourly` block with length guarding — a missing,
non-list, or wrong-length field is degraded to an all-`None` column of
the same length as the `time` sequence. -/
def safeHourlyFrame (hourly : List (String × Json)) (fields : List String) :
    Except TErr Frame :=
  match pyTimes hourly with
  | .error e => .error e
  | .ok times =>
      let n := times.length
      .ok (fields.foldl
        (fun acc col => dictInsert acc col (fieldVals hourly n col))
        [("time", times)])

/-- `_categorize_pm25` from `transform.py`: coarse PM2.5 bucket
classifier; `none` models `None`/`NaN`.  The strings are the source's
(Indonesian) category labels; the spec renders them as
unknown/Good/Moderate/Unhealthy-for-sensitive-groups/Unhealthy/
Very-unhealthy/Hazardous in that order. -/
def categorizePM25 (value : Option ℚ) : String :=
  match value with
  | none => "Tidak diketahui"
  | some v =>
      if v ≤ 12 then "Baik"
      else if v ≤ 35.4 then "Sedang"
      else if v ≤ 55.4 then "Tidak sehat (sensitif)"
      else if v ≤ 150.4 then "Tidak sehat"
      else if v ≤ 250.4 then "Sangat tidak sehat"
      else "Berbahaya"

/-- `_pm25_category` from `report.py` (the report-stage copy of the
classifier), transcribed independently from its own source lines. -/
def pm25Category (avg_pm25 : Option ℚ) : String :=
  match avg_pm25 with
  | none => "Tidak diketahui"
  | some v =>
      if v ≤ 12 then "Baik"
      else if v ≤ 35.4 then "Sedang"
      else if v ≤ 55.4 then "Tidak sehat (sensitif)"
      else if v ≤ 150.4 then "Tidak sehat"
      else if v ≤ 250.4 then "Sangat tidak sehat"
      else "Berbahaya"

/-- Severity rank of the six defined PM2.5 categories, in the order of
the threshold ladder ("Baik" = Good is least severe). The unknown
label is ranked separately and is never produced for a non-null
value. -/
def pmSeverity : String → ℕ
  | "Baik" => 0
  | "Sedang" => 1
  | "Tidak sehat (sensitif)" => 2
  | "Tidak sehat" => 3
  | "Sangat tidak sehat" => 4
  | "Berbahaya" => 5
  | _ => 6

/-! ## Dates and timestamp parsing -/

/-- A calendar date (`datetime.date`). -/
structure Date where
  y : ℕ
  m : ℕ
  d : ℕ
  deriving DecidableEq

/-- Chronological (lexicographic) order on dates. -/
def Date.leb (a b : Date) : Bool :=
  a.y < b.y ∨ (a.y = b.y ∧ (a.m < b.m ∨ (a.m = b.m ∧ a.d ≤ b.d)))

def isLeapYear (y : ℕ) : Bool :=
  (y % 4 = 0 ∧ y % 100 ≠ 0) ∨ y % 400 = 0

def daysInMonth (y m : ℕ) : ℕ :=
  if m = 2 then (if isLeapYear y then 29 else 28)
  else if m = 4 ∨ m = 6 ∨ m = 9 ∨ m = 11 then 30
  else 31

def digitVal (c : Char) : ℕ := c.toNat - 48

def natOfDigits (cs : List Char) : ℕ :=
  cs.foldl (fun a c => a * 10 + digitVal c) 0

/-- Validity of the optional time-of-day suffix of an ISO timestamp:
empty, or a `T`/space separator followed by `HH:MM` or `HH:MM:SS`. -/
def timeSuffixOk : List Char → Bool
  | [] => true
  | sep :: h1 :: h2 :: ':' :: m1 :: m2 :: rest =>
      (sep == 'T' || sep == ' ') && h1.isDigit && h2.isDigit && m1.isDigit &&
      m2.isDigit && decide (natOfDigits [h1, h2] < 24) &&
      decide (natOfDigits [m1, m2] < 60) &&
      (match rest with
       | [] => true
       | ':' :: s1 :: s2 :: [] =>
           s1.isDigit && s2.isDigit && decide (natOfDigits [s1, s2] < 60)
       | _ => false)
  | _ => false

/-- Models `pd.to_datetime(s, errors="coerce")` followed by `.date` on
the ISO-8601 subset the Open-Meteo API emits
(`YYYY-MM-DD[THH:MM[:SS]]`); anything else coerces to `NaT` (`none`).
pandas accepts further formats; none appears in this pipeline. -/
def parseDate (s : String) : Option Date :=
  match s.data with
  | y1 :: y2 :: y3 :: y4 :: '-' :: m1 :: m2 :: '-' :: d1 :: d2 :: rest => do
      guard (y1.isDigit ∧ y2.isDigit ∧ y3.isDigit ∧ y4.isDigit ∧
             m1.isDigit ∧ m2.isDigit ∧ d1.isDigit ∧ d2.isDigit)
      let y := natOfDigits [y1, y2, y3, y4]
      let m := natOfDigits [m1, m2]
      let d := natOfDigits [d1, d2]
      guard (1 ≤ m ∧ m ≤ 12 ∧ 1 ≤ d ∧ d ≤ daysInMonth y m)
      guard (timeSuffixOk rest)
      return ⟨y, m, d⟩
  | _ => none

/-- `pd.to_datetime(cell, errors="coerce")` then `.date` on a cell:
only string cells can carry a timestamp here (pandas' epoch
interpretation of bare numbers is not modelled; no claim exercises
it). -/
def parseDateJson : Json → Option Date
  | .str s => parseDate s
  | _ => none

/-! ## Numeric coercion (`pd.to_numeric(errors="coerce")`) -/

/-- Decimal-literal parsing for `pd.to_numeric` on strings:
`[+-]digits[.digits]` (exponents do not occur in this data). -/
def parseUnsignedRat (cs : List Char) : Option ℚ :=
  let intds := cs.takeWhile Char.isDigit
  let rest := cs.dropWhile Char.isDigit
  match rest with
  | [] => if intds.isEmpty then none else some (natOfDigits intds)
  | '.' :: frac =>
      if frac.all Char.isDigit ∧ ¬(intds.isEmpty ∧ frac.isEmpty) then
        some ((natOfDigits intds : ℚ) +
          (natOfDigits frac : ℚ) / ((10 : ℚ) ^ frac.length))
      else none
  | _ => none

def parseRatString (s : String) : Option ℚ :=
  match s.data with
  | '-' :: rest => (parseUnsignedRat rest).map (fun q => -q)
  | '+' :: rest => parseUnsignedRat rest
  | cs => parseUnsignedRat cs

/-- `pd.to_numeric(x, errors="coerce")` on a single cell: numbers pass
through, booleans become 0/1, numeric strings are parsed, everything
else (including `None`) coerces to `NaN`. -/
def toNumeric : Json → Option ℚ
  | .num q => some q
  | .bool b => some (if b then 1 else 0)
  | .str s => parseRatString s
  | _ => none

/-! ## Rounding (`.round(2)`, numpy half-even) -/

/-- Floor of a rational (`⌊q⌋`, via floor division of the numerator
by the denominator). -/
def ratFloor (q : ℚ) : ℤ := q.num.fdiv (q.den : ℤ)

/-- numpy's round-half-to-even on an exact rational. -/
def roundHalfEven (q : ℚ) : ℤ :=
  let f := ratFloor q
  let r := q - (f : ℚ)
  if r < 1 / 2 then f
  else if 1 / 2 < r then f + 1
  else if f % 2 = 0 then f else f + 1

/-- `.round(2)`: round to two decimal places. -/
def round2 (q : ℚ) : ℚ := (roundHalfEven (q * 100) : ℚ) / 100

/-! ## Frames, rename, outer merge, sort -/

def frameNames (f : Frame) : List String := f.map Prod.fst

def frameGet (f : Frame) (k : String) : Option (List Json) := dictGet f k

/-- Row count of a frame (all columns built by `safeHourlyFrame` have
equal length; the first column is `time`). -/
def frameNRows (f : Frame) : ℕ :=
  match f with
  | [] => 0
  | c :: _ => c.2.length

/-- A single row of a frame, as an ordered association of column name
to cell. -/
def frameRow (f : Frame) (i : ℕ) : List (String × Json) :=
  f.map (fun c => (c.1, c.2.getD i Json.null))

def frameRows (f : Frame) : List (List (String × Json)) :=
  (List.range (frameNRows f)).map (frameRow f)

/-- Cell of a row by column name (`NaN`/absent modelled as null). -/
def rowGet (r : List (String × Json)) (k : String) : Json :=
  (dictGet r k).getD Json.null

/-- `df.rename(columns=ren)`. -/
def renameCols (f : Frame) (ren : List (String × String)) : Frame :=
  f.map (fun c => ((dictGet ren c.1).getD c.1, c.2))

/-- `pd.merge(l, r, on="time", how="outer")`, row-wise: every left row
paired with each key-matching right row (or right-side nulls when
unmatched), followed by the unmatched right rows with left-side nulls.
Key equality is Python `==`. -/
def mergeOuter (l r : Frame) : List (List (String × Json)) :=
  let lrows := frameRows l
  let rrows := frameRows r
  let lNames := frameNames l
  let rNames := (frameNames r).filter (fun nm => nm ≠ "time")
  let leftPart := lrows.flatMap (fun lr =>
    let k := rowGet lr "time"
    let ms := rrows.filter (fun rr => jsonEqb (rowGet rr "time") k)
    if ms.isEmpty then
      [lr ++ rNames.map (fun nm => (nm, Json.null))]
    else
      ms.map (fun rr => lr ++ rNames.map (fun nm => (nm, rowGet rr nm))))
  let rightOnly := rrows.filter (fun rr =>
    !(lrows.any (fun lr => jsonEqb (rowGet lr "time") (rowGet rr "time"))))
  let rightPart := rightOnly.map (fun rr =>
    lNames.map (fun nm =>
      (nm, if nm = "time" then rowGet rr "time" else Json.null)) ++
    rNames.map (fun nm => (nm, rowGet rr nm)))
  leftPart ++ rightPart

/-- Constructor rank, used to totalize the sort order on cells (mixed
scalar types in one key column would raise in Python; the raw `time`
values here are all strings, compared lexicographically). -/
def jsonRank : Json → ℕ
  | .null => 0
  | .bool _ => 1
  | .num _ => 2
  | .str _ => 3
  | .arr _ => 4
  | .obj _ => 5

/-- Code-point lexicographic order on strings (Python `<=` on `str`). -/
def charListLeb : List Char → List Char → Bool
  | [], _ => true
  | _ :: _, [] => false
  | c :: cs, d :: ds =>
      if c.toNat < d.toNat then true
      else if d.toNat < c.toNat then false
      else charListLeb cs ds

def strLeb (a b : String) : Bool := charListLeb a.data b.data

def jsonLeb : Json → Json → Bool
  | .str a, .str b => strLeb a b
  | .num a, .num b => a ≤ b
  | .bool a, .bool b => !a || b
  | x, y => jsonRank x ≤ jsonRank y

/-- Stable insertion sort (pandas' `sort_values` ordering; ties keep
a deterministic order). -/
def insertAsc {α : Type} (le : α → α → Bool) (x : α) : List α → List α
  | [] => [x]
  | y :: ys => if le x y then x :: y :: ys else y :: insertAsc le x ys

def sortAsc {α : Type} (le : α → α → Bool) : List α → List α
  | [] => []
  | x :: xs => insertAsc le x (sortAsc le xs)

/-- `df.sort_values("time")` on the merged rows (performed while the
`time` cells are still raw strings). -/
def sortByTime (rows : List (List (String × Json))) :
    List (List (String × Json)) :=
  sortAsc (fun a b => jsonLeb (rowGet a "time") (rowGet b "time")) rows

/-- Apply `pd.to_numeric(errors="coerce")` to the named columns of a
row. -/
def coerceNumericRow (numCols : List String) (r : List (String × Json)) :
    List (String × Json) :=
  r.map (fun p =>
    (p.1,
     if p.1 ∈ numCols then
       match toNumeric p.2 with
       | some q => Json.num q
       | none => Json.null
     else p.2))

/-! ## Daily aggregation (`run` in `transform.py`) -/

/-- A typed hourly row of the joined daily-pipeline table, after
numeric coercion, date extraction and `dropna(subset=["date"])`. -/
structure HRow where
  date : Date
  temp : Option ℚ
  rain : Option ℚ
  pm25 : Option ℚ
  pm10 : Option ℚ
  deriving DecidableEq

/-- Numeric value of a coerced cell (`NaN` is `none`). -/
def cellRat : Json → Option ℚ
  | .num q => some q
  | _ => none

/-- `df["time"] = pd.to_datetime(...)`, `df["date"] = ...dt.date`,
`df.dropna(subset=["date"])`, then reading off the four numeric
columns: rows whose time fails to parse are dropped. -/
def toHRows (rows : List (List (String × Json))) : List HRow :=
  rows.filterMap (fun r =>
    (parseDateJson (rowGet r "time")).map (fun d =>
      { date := d
        temp := cellRat (rowGet r "temp")
        rain := cellRat (rowGet r "rain")
        pm25 := cellRat (rowGet r "pm25")
        pm10 := cellRat (rowGet r "pm10") }))

def optVals (xs : List (Option ℚ)) : List ℚ := xs.filterMap id

/-- pandas `"min"` aggregation: NaN-skipping minimum, NaN when the
group has no non-null value. -/
def aggMin (xs : List (Option ℚ)) : Option ℚ :=
  match optVals xs with
  | [] => none
  | v :: vs => some (vs.foldl min v)

/-- pandas `"max"` aggregation. -/
def aggMax (xs : List (Option ℚ)) : Option ℚ :=
  match optVals xs with
  | [] => none
  | v :: vs => some (vs.foldl max v)

/-- pandas `"sum"` aggregation: NaN-skipping sum, `0` (not NaN) when
the group has no non-null value. -/
def aggSum (xs : List (Option ℚ)) : ℚ := (optVals xs).sum

/-- pandas `"mean"` aggregation: NaN-skipping arithmetic mean, NaN
when the group has no non-null value. -/
def aggMean (xs : List (Option ℚ)) : Option ℚ :=
  match optVals xs with
  | [] => none
  | vs => some (vs.sum / (vs.length : ℚ))

/-- The group keys of `df.groupby("date")`: distinct dates, sorted
ascending (pandas sorts group keys by default). -/
def groupDates (rows : List HRow) : List Date :=
  sortAsc Date.leb ((rows.map (fun r => r.date)).dedup)

/-- One row of the `groupby("date").agg(...)` result, before the
fillna/round/categorize cleanup. -/
structure DailyRaw where
  date : Date
  temp_min : Option ℚ
  temp_max : Option ℚ
  total_rain : ℚ
  pm25_avg : Option ℚ
  pm10_avg : Option ℚ
  deriving DecidableEq

/-- The rows of one `groupby("date")` group. -/
def dateGroup (rows : List HRow) (d : Date) : List HRow :=
  rows.filter (fun r => r.date = d)

/-- `df.groupby("date", dropna=False).agg(temp_min=..., temp_max=...,
total_rain=..., pm25_avg=..., pm10_avg=...)` from `transform.run`. -/
def dailyAggRaw (rows : List HRow) : List DailyRaw :=
  (groupDates rows).map (fun d =>
    let g := dateGroup rows d
    { date := d
      temp_min := aggMin (g.map (fun r => r.temp))
      temp_max := aggMax (g.map (fun r => r.temp))
      total_rain := aggSum (g.map (fun r => r.rain))
      pm25_avg := aggMean (g.map (fun r => r.pm25))
      pm10_avg := aggMean (g.map (fun r => r.pm10)) })

/-- A row of the final daily table. `sunrise`/`sunset` cells exist
only when the table's `withSun` flag is set; a `none` cell is a
left-join miss (`NaN`). -/
structure DailyRow where
  date : Date
  temp_min : Option ℚ
  temp_max : Option ℚ
  total_rain : ℚ
  pm25_avg : Option ℚ
  pm10_avg : Option ℚ
  pm25_category : String
  sunrise : Option Json
  sunset : Option Json

/-- The final daily table; `withSun` records whether the
sunrise/sunset metadata merge added those two columns. -/
structure DailyTable where
  withSun : Bool
  rows : List DailyRow

/-- The cleanup lines of `transform.run`:
`total_rain.fillna(0.0)` (a no-op on the NaN-free sum column, kept for
faithfulness), `.round(2)` on the five numeric columns, and the
`pm25_category` column computed from the rounded `pm25_avg`. -/
def finalizeDaily (r : DailyRaw) : DailyRow :=
  let rain := round2 ((some r.total_rain).getD 0)
  let p25 := r.pm25_avg.map round2
  { date := r.date
    temp_min := r.temp_min.map round2
    temp_max := r.temp_max.map round2
    total_rain := rain
    pm25_avg := p25
    pm10_avg := r.pm10_avg.map round2
    pm25_category := categorizePM25 p25
    sunrise := none
    sunset := none }

/-- `_fit(vals)` from the daily-metadata block of `transform.run`:
`vals = vals or []`, then keep only a list of the declared length;
anything else becomes `[None] * n`. -/
def fitVals (v : Option Json) (n : ℕ) : List Json :=
  let v' := match v with
            | some j => if j.truthy then j else Json.arr []
            | none => Json.arr []
  match v' with
  | .arr xs => if xs.length = n then xs else List.replicate n Json.null
  | _ => List.replicate n Json.null

/-- A row of the small `date -> sunrise/sunset` frame (`dapi`), after
its `dropna(subset=["date"])`. -/
structure SunRow where
  date : Date
  sunrise : Json
  sunset : Json

/-- Build the `dapi` frame from the weather document's `daily` block
(its `time`, `sunrise`, `sunset` members). -/
def buildSunRows (times : List Json) (sunrise sunset : Option Json) :
    List SunRow :=
  let n := times.length
  let sr := fitVals sunrise n
  let ss := fitVals sunset n
  ((times.zip (sr.zip ss)).filterMap (fun p =>
    (parseDateJson p.1).map (fun d =>
      { date := d, sunrise := p.2.1, sunset := p.2.2 })))

/-- `w_daily = weather.get("daily", {}) if isinstance(weather, dict)
else {}`. -/
def wDailyOf (weather : Json) : Json :=
  if weather.isObj then (weather.get "daily").getD (Json.obj [])
  else Json.obj []

/-- The guard of the daily-metadata block:
`isinstance(w_daily, dict) and (w_daily.get("time") or
w_daily.get("sunrise") or w_daily.get("sunset"))`. -/
def sunCondb (wd : Json) : Bool :=
  wd.isObj &&
    (((wd.get "time").getD Json.null).truthy ||
     ((wd.get "sunrise").getD Json.null).truthy ||
     ((wd.get "sunset").getD Json.null).truthy)

/-- `daily.merge(dapi, on="date", how="left")`: each daily row paired
with every matching metadata row, or with null metadata when there is
no match. -/
def leftMergeSun (daily : List DailyRow) (sun : List SunRow) :
    List DailyRow :=
  daily.flatMap (fun dr =>
    match sun.filter (fun s => s.date = dr.date) with
    | [] => [{ dr with sunrise := none, sunset := none }]
    | ms => ms.map (fun s =>
        { dr with sunrise := some s.sunrise, sunset := some s.sunset }))

/-- The body of `transform.run` after the two raw JSON documents have
been loaded: build guarded hourly frames, rename, outer-merge on
time, coerce numerics, extract dates, aggregate per day, clean up,
and left-join the optional sunrise/sunset metadata. -/
def runDailyCore (weather air : Json) : Except TErr DailyTable := do
  -- weather.get("hourly", {}) / air.get("hourly", {}): AttributeError
  -- on a non-dict document.
  let wh ← if weather.isObj then pure ((weather.get "hourly").getD (Json.obj []))
           else .error TErr.attrError
  let ah ← if air.isObj then pure ((air.get "hourly").getD (Json.obj []))
           else .error TErr.attrError
  -- _safe_hourly_frame itself calls hourly.get: AttributeError on a
  -- non-dict hourly block.
  let whkv ← if wh.isObj then pure wh.objFields else .error TErr.attrError
  let ahkv ← if ah.isObj then pure ah.objFields else .error TErr.attrError
  let hw0 ← safeHourlyFrame whkv ["temperature_2m", "precipitation"]
  let ha0 ← safeHourlyFrame ahkv ["pm2_5", "pm10"]
  let hw := renameCols hw0 [("temperature_2m", "temp"), ("precipitation", "rain")]
  let ha := renameCols ha0 [("pm2_5", "pm25"), ("pm10", "pm10")]
  let merged := sortByTime (mergeOuter hw ha)
  let coerced := merged.map (coerceNumericRow ["temp", "rain", "pm25", "pm10"])
  let hrows := toHRows coerced
  let daily := (dailyAggRaw hrows).map finalizeDaily
  -- Daily metadata merge (sunrise/sunset), guarded by
  -- isinstance(w_daily, dict) and truthiness of its members.
  let wd := wDailyOf weather
  if sunCondb wd then
    let times ← pyTimes wd.objFields
    let sun := buildSunRows times (wd.get "sunrise") (wd.get "sunset")
    return { withSun := true, rows := leftMergeSun daily sun }
  else
    return { withSun := false, rows := daily }

/-! ## CSV serialization and the transform as a file-state step -/

def pad2 (n : ℕ) : String :=
  if n < 10 then "0" ++ toString n else toString n

def pad4 (n : ℕ) : String :=
  if n < 10 then "000" ++ toString n
  else if n < 100 then "00" ++ toString n
  else if n < 1000 then "0" ++ toString n
  else toString n

def dateToStr (d : Date) : String :=
  pad4 d.y ++ "-" ++ pad2 d.m ++ "-" ++ pad2 d.d

/-- pandas float rendering for the post-`round(2)` columns: integral
values as `x.0`, otherwise at most two decimals without a trailing
zero. -/
def ratToCsv (q : ℚ) : String :=
  if q.den = 1 then toString q.num ++ ".0"
  else
    let sgn := if q < 0 then "-" else ""
    let aq := |q|
    let k2 := aq * 100
    if k2.den = 1 then
      let n := k2.num.toNat
      let ip := n / 100
      let fr := n % 100
      if fr % 10 = 0 then sgn ++ toString ip ++ "." ++ toString (fr / 10)
      else sgn ++ toString ip ++ "." ++ pad2 fr
    else toString q.num ++ "/" ++ toString q.den

/-- A NaN cell is written as the empty field by `to_csv`. -/
def optRatToCsv : Option ℚ → String
  | none => ""
  | some q => ratToCsv q

def jsonToCsv : Json → String
  | .null => ""
  | .bool b => if b then "True" else "False"
  | .num q => ratToCsv q
  | .str s => s
  | .arr _ => ""
  | .obj _ => ""

def dailyRowCsv (withSun : Bool) (r : DailyRow) : String :=
  String.intercalate ","
    ([dateToStr r.date, optRatToCsv r.temp_min, optRatToCsv r.temp_max,
      ratToCsv r.total_rain, optRatToCsv r.pm25_avg, optRatToCsv r.pm10_avg,
      r.pm25_category] ++
     (if withSun then
        [(r.sunrise.map jsonToCsv).getD "", (r.sunset.map jsonToCsv).getD ""]
      else []))

/-- `daily.to_csv(out_file, index=False)`. -/
def dailyCsv (t : DailyTable) : String :=
  String.intercalate "\n"
    (("date,temp_min,temp_max,total_rain,pm25_avg,pm10_avg,pm25_category" ++
      (if t.withSun then ",sunrise,sunset" else "")) ::
     t.rows.map (dailyRowCsv t.withSun))

/-- The on-disk state `transform.run` interacts with for one city:
the two raw JSON documents (as parsed values; `none` = file absent)
and the processed daily CSV it writes. -/
structure FileState where
  rawWeather : Option Json
  rawAir : Option Json
  processedDaily : Option String

/-- `transform.run` for one city as a step on the file state: raises
`FileNotFoundError` when the weather or the air raw file is missing
(the check is `not weather_path.exists() or not air_path.exists()`),
otherwise runs the pipeline and overwrites the processed CSV.  The
raw files are only read, never written. -/
def transformStep (fs : FileState) : Except TErr FileState :=
  match fs.rawWeather, fs.rawAir with
  | some w, some a =>
      match runDailyCore w a with
      | .ok t => .ok { fs with processedDaily := some (dailyCsv t) }
      | .error e => .error e
  | _, _ => .error TErr.missingInput

/-! ## The hourly-only variant (`run_hourly`) -/

/-- The fields that `run_hourly` requests from the weather hourly
block, and their rename map to the short output names. -/
def hourlyWFields : List String :=
  ["temperature_2m", "precipitation", "relative_humidity_2m",
   "wind_speed_10m", "apparent_temperature", "weather_code"]

def hourlyWRen : List (String × String) :=
  [("temperature_2m", "temp"), ("precipitation", "rain"),
   ("relative_humidity_2m", "rh"), ("wind_speed_10m", "wind"),
   ("apparent_temperature", "feels_like"), ("weather_code", "wcode")]

/-- The joined hourly output table: its column names in order, and its
rows. -/
structure HourlyOut where
  names : List String
  rows : List (List (String × Json))

/-- The body of `transform.run_hourly` after loading the raw JSON:
guarded frames over the full (required + optional) field list, rename,
outer-merge on time, numeric coercion of whichever numeric columns are
present, time parsing with `dropna(subset=["time"])`, and a derived
`date` column. -/
def runHourlyCore (weather air : Json) : Except TErr HourlyOut := do
  let wh ← if weather.isObj then pure ((weather.get "hourly").getD (Json.obj []))
           else .error TErr.attrError
  let ah ← if air.isObj then pure ((air.get "hourly").getD (Json.obj []))
           else .error TErr.attrError
  let whkv ← if wh.isObj then pure wh.objFields else .error TErr.attrError
  let ahkv ← if ah.isObj then pure ah.objFields else .error TErr.attrError
  let hw0 ← safeHourlyFrame whkv hourlyWFields
  let ha0 ← safeHourlyFrame ahkv ["pm2_5", "pm10"]
  let hw := renameCols hw0 hourlyWRen
  let ha := renameCols ha0 [("pm2_5", "pm25"), ("pm10", "pm10")]
  let names := frameNames hw ++ (frameNames ha).filter (fun nm => nm ≠ "time")
  let merged := sortByTime (mergeOuter hw ha)
  -- numeric_cols = [c for c in [...] if c in df.columns]
  let numCols := ["temp", "rain", "rh", "wind", "feels_like", "pm25",
                  "pm10"].filter (fun c => c ∈ names)
  let coerced := merged.map (coerceNumericRow numCols)
  -- to_datetime + dropna(subset=["time"]) + date column (the
  -- normalized datetime rendering of the kept time cells is not
  -- re-serialized by any claim; the original cell is kept).
  let rows := coerced.filterMap (fun r =>
    (parseDateJson (rowGet r "time")).map (fun d =>
      r ++ [("date", Json.str (dateToStr d))]))
  return { names := names ++ ["date"], rows := rows }

/-- The cells of one named column of the hourly output. -/
def hourlyColumn (t : HourlyOut) (nm : String) : List Json :=
  t.rows.map (fun r => rowGet r nm)

/-! ## Fetch (`fetch.run`) -/

/-- One city's raw forecast bundle (weather + air documents). -/
structure Bundle where
  weather : Json
  air : Json

/-- Errors `fetch.run` can raise: `invalidRange` is the `ValueError`
for days outside 1..16, `geo` a geocoding failure, `network` the
`NetworkError` after retry exhaustion, `sampleMissing` the
`FileNotFoundError` from `_load_sample`. -/
inductive FErr where
  | invalidRange : FErr
  | geo : FErr
  | network : FErr
  | sampleMissing : FErr
  deriving DecidableEq

/-- The environment a single `fetch.run` call observes: whether
geocoding succeeds, the outcome of `_fetch_weather_air` (both network
calls, after retries), and the offline sample bundle for the city's
slug, if any. -/
structure FetchEnv where
  geocodeOk : Bool
  netResult : Except Unit Bundle
  sample : Option Bundle

structure FetchArgs where
  days : ℤ
  offline : Bool
  fallback : Bool

/-- The four files `_save_json` writes on a successful run, in write
order: timestamped and "latest" copies of each document. -/
inductive RawFile where
  | weatherTs : RawFile
  | airTs : RawFile
  | weatherLatest : RawFile
  | airLatest : RawFile
  deriving DecidableEq

/-- The bundle-acquisition stage of `fetch.run`: offline mode reads
the sample (raising `FileNotFoundError` when absent); otherwise
geocode, fetch over the network, and on failure either fall back to
the sample (again raising `FileNotFoundError` when absent) or
re-raise the `NetworkError`. -/
def fetchData (args : FetchArgs) (env : FetchEnv) : Except FErr Bundle :=
  if args.offline then
    match env.sample with
    | some b => .ok b
    | none => .error .sampleMissing
  else if ¬ env.geocodeOk then .error .geo
  else
    match env.netResult with
    | .ok b => .ok b
    | .error _ =>
        if args.fallback then
          match env.sample with
          | some b => .ok b
          | none => .error .sampleMissing
        else .error .network

/-- `fetch.run`: validate the day count, obtain the bundle, then
perform the four `_save_json` writes.  All raising points precede the
first write, which the returned write log reflects. -/
def fetchRun (args : FetchArgs) (env : FetchEnv) :
    List (RawFile × Json) × Except FErr Bundle :=
  if args.days < 1 ∨ 16 < args.days then ([], .error .invalidRange)
  else
    match fetchData args env with
    | .ok b =>
        ([(.weatherTs, b.weather), (.airTs, b.air),
          (.weatherLatest, b.weather), (.airLatest, b.air)], .ok b)
    | .error e => ([], .error e)

/-! ## Multi-city comparison (`web.compare`) -/

/-- One entry of the comparison response's `cities` list: the city
name, its daily records, and the recorded per-city error, if any. -/
structure CityResult (α : Type) where
  name : String
  daily : List α
  error : Option String

/-- `badRequest` is the 400 for fewer than two requested cities;
`notEnough` the 500 raised when fewer than two cities produced
data. -/
inductive CErr where
  | badRequest : CErr
  | notEnough : CErr
  deriving DecidableEq

/-- The `compare` endpoint over an abstract per-city fetch outcome
(`fetch_city_data` succeeding with that city's daily records, or
failing with an error message): every city is attempted, failures are
caught and recorded, and the whole operation fails only on the two
guards. -/
def cityResults {α : Type} (cities : List String)
    (fetchr : String → Except String (List α)) : List (CityResult α) :=
  cities.map (fun c =>
    match fetchr c with
    | .ok records => { name := c, daily := records, error := none }
    | .error msg => { name := c, daily := [], error := some msg })

def compareRun {α : Type} (cities : List String)
    (fetchr : String → Except String (List α)) :
    Except CErr (List (CityResult α)) :=
  if cities.length < 2 then .error .badRequest
  else
    let results := cityResults cities fetchr
    let successCount := (results.filter (fun r => !r.daily.isEmpty)).length
    if successCount < 2 then .error .notEnough
    else .ok results

/-! ## Helper lemmas about the dictionary and frame primitives -/

lemma dictGet_append {α : Type} (a b : List (String × α)) (k : String) :
    dictGet (a ++ b) k = (dictGet b k).or (dictGet a k) := by
  induction a with
  | nil => cases h : dictGet b k <;> simp [dictGet, Option.or, h]
  | cons p rest ih =>
      have hstep : dictGet ((p :: rest) ++ b) k =
          match dictGet (rest ++ b) k with
          | some v => some v
          | none => if p.1 = k then some p.2 else none := rfl
      rw [hstep, ih]
      cases h : dictGet b k <;> cases h' : dictGet rest k <;>
        simp [Option.or, dictGet, h, h']

lemma dictGet_map_entry {α β : Type} (l : List (String × α))
    (g : String → α → β) (k : String) :
    dictGet (l.map (fun p => (p.1, g p.1 p.2))) k = (dictGet l k).map (g k) := by
  induction l with
  | nil => rfl
  | cons p rest ih =>
      simp only [List.map_cons, dictGet, ih]
      cases h : dictGet rest k with
      | some v => simp
      | none =>
          simp only [Option.map_none]
          by_cases hp : p.1 = k
          · subst hp; simp
          · simp [hp]

lemma dictGet_ofNames {β : Type} (names : List String) (f : String → β)
    (k : String) :
    dictGet (names.map (fun n => (n, f n))) k =
      if k ∈ names then some (f k) else none := by
  induction names with
  | nil => rfl
  | cons n rest ih =>
      simp only [List.map_cons, dictGet, ih]
      by_cases hk : k ∈ rest
      · simp [hk]
      · by_cases hn : n = k
        · subst hn; simp [hk]
        · simp [hk, hn, Ne.symm hn]

lemma dictGet_map_insert {α : Type} (d : List (String × α)) (k : String)
    (v : α) :
    dictGet (d.map fun p => if p.1 = k then (k, v) else p) k =
      if d.any (fun p => p.1 = k) then some v else none := by
  induction d with
  | nil => rfl
  | cons p rest ih =>
      simp only [List.map_cons, dictGet, ih]
      by_cases hrest : rest.any (fun p => p.1 = k) = true
      · simp [hrest]
      · simp only [Bool.not_eq_true] at hrest
        rw [hrest]
        by_cases hp : p.1 = k
        · simp [hp, hrest]
        · simp [hp, hrest]

lemma dictGet_map_insert_ne {α : Type} (d : List (String × α)) (k k' : String)
    (v : α) (h : k' ≠ k) :
    dictGet (d.map fun p => if p.1 = k then (k, v) else p) k' =
      dictGet d k' := by
  induction d with
  | nil => rfl
  | cons p rest ih =>
      simp only [List.map_cons, dictGet, ih]
      by_cases hp : p.1 = k
      · cases hd : dictGet rest k' <;> simp [hp, hd, Ne.symm h, h]
      · cases hd : dictGet rest k' <;> simp [hp, hd]

lemma dictGet_dictInsert_self {α : Type} (d : List (String × α)) (k : String)
    (v : α) : dictGet (dictInsert d k v) k = some v := by
  unfold dictInsert
  by_cases h : d.any (fun p => p.1 = k) = true
  · simp [h, dictGet_map_insert]
  · rw [if_neg (by simp [h]), dictGet_append]
    simp [dictGet]

lemma dictGet_dictInsert_ne {α : Type} (d : List (String × α)) (k k' : String)
    (v : α) (h : k' ≠ k) : dictGet (dictInsert d k v) k' = dictGet d k' := by
  unfold dictInsert
  by_cases hany : d.any (fun p => p.1 = k) = true
  · simp [hany, dictGet_map_insert_ne _ _ _ _ h]
  · rw [if_neg (by simp [hany]), dictGet_append]
    cases hd : dictGet d k' <;> simp [dictGet, Option.or, Ne.symm h, hd]

lemma mem_dictInsert {α : Type} (d : List (String × α)) (k : String) (v : α)
    (p : String × α) (h : p ∈ dictInsert d k v) : p = (k, v) ∨ p ∈ d := by
  unfold dictInsert at h
  by_cases hany : d.any (fun q => q.1 = k)
  · simp only [hany, if_true, List.mem_map] at h
    obtain ⟨q, hq, hqp⟩ := h
    by_cases hqk : q.1 = k
    · left; rw [← hqp]; simp [hqk]
    · right; rw [← hqp]; simpa [hqk] using hq
  · rw [if_neg (by simp [hany])] at h
    rcases List.mem_append.mp h with h | h
    · right; exact h
    · left; simpa using h

lemma dictInsert_names_not_mem {α : Type} (d : List (String × α)) (k : String)
    (v : α) (h : k ∉ d.map Prod.fst) :
    (dictInsert d k v).map Prod.fst = d.map Prod.fst ++ [k] := by
  have hany : d.any (fun p => p.1 = k) = false := by
    rw [List.any_eq_false]
    intro p hp
    simp only [decide_eq_true_eq]
    intro hpk
    exact h (List.mem_map.mpr ⟨p, hp, hpk⟩)
  unfold dictInsert
  simp [hany]

/-- Lookup after the `_safe_hourly_frame` fold, for a field outside
the remaining field list. -/
lemma foldl_insert_not_mem {α : Type} (fields : List String)
    (g : String → α) (d : List (String × α)) (f : String) (h : f ∉ fields) :
    dictGet (fields.foldl (fun acc c => dictInsert acc c (g c)) d) f =
      dictGet d f := by
  induction fields generalizing d with
  | nil => rfl
  | cons c cs ih =>
      simp only [List.mem_cons, not_or] at h
      simp only [List.foldl_cons]
      rw [ih _ h.2, dictGet_dictInsert_ne _ _ _ _ h.1]

/-- Lookup after the `_safe_hourly_frame` fold, for a declared field:
the column holds exactly the guarded values for that field. -/
lemma foldl_insert_mem {α : Type} (fields : List String)
    (g : String → α) (d : List (String × α)) (f : String) (h : f ∈ fields) :
    dictGet (fields.foldl (fun acc c => dictInsert acc c (g c)) d) f =
      some (g f) := by
  induction fields generalizing d with
  | nil => simp at h
  | cons c cs ih =>
      simp only [List.foldl_cons]
      by_cases hcs : f ∈ cs
      · exact ih _ hcs
      · have hfc : f = c := by
          rcases List.mem_cons.mp h with h' | h'
          · exact h'
          · exact absurd h' hcs
        subst hfc
        rw [foldl_insert_not_mem _ _ _ _ hcs, dictGet_dictInsert_self]

/-- Every entry of the `_safe_hourly_frame` fold satisfies an
invariant preserved by the inserted columns. -/
lemma foldl_insert_forall {α : Type} (fields : List String)
    (g : String → α) (d : List (String × α)) (P : String × α → Prop)
    (hd : ∀ p ∈ d, P p) (hg : ∀ c ∈ fields, P (c, g c)) :
    ∀ p ∈ fields.foldl (fun acc c => dictInsert acc c (g c)) d, P p := by
  induction fields generalizing d with
  | nil => exact hd
  | cons c cs ih =>
      simp only [List.foldl_cons]
      refine ih _ (fun p hp => ?_) (fun c' hc' => hg c' (List.mem_cons_of_mem _ hc'))
      rcases mem_dictInsert _ _ _ _ hp with h | h
      · rw [h]; exact hg c (List.mem_cons_self _ _)
      · exact hd p h

lemma frameNames_foldl_insert (fields : List String) (g : String → List Json)
    (init : Frame) (hnd : fields.Nodup)
    (hdisj : ∀ f ∈ fields, f ∉ init.map Prod.fst) :
    (fields.foldl (fun acc c => dictInsert acc c (g c)) init).map Prod.fst =
      init.map Prod.fst ++ fields := by
  induction fields generalizing init with
  | nil => simp
  | cons c cs ih =>
      simp only [List.foldl_cons]
      have hc : c ∉ init.map Prod.fst := hdisj c (List.mem_cons_self c cs)
      have hnames := dictInsert_names_not_mem init c (g c) hc
      rw [ih (dictInsert init c (g c)) (List.Nodup.of_cons hnd)]
      · rw [hnames, List.append_assoc]
        rfl
      · intro f hf
        rw [hnames]
        simp only [List.mem_append, List.mem_singleton, not_or]
        refine ⟨hdisj f (List.mem_cons_of_mem _ hf), ?_⟩
        intro hfc
        subst hfc
        exact (List.nodup_cons.mp hnd).1 hf

lemma getD_replicate (n i : ℕ) (a : Json) :
    (List.replicate n a).getD i a = a := by
  induction n generalizing i with
  | zero => simp [List.getD]
  | succ m ih =>
      cases i with
      | zero => rfl
      | succ j => simp [List.replicate, List.getD]

lemma mem_insertAsc {α : Type} (le : α → α → Bool) (x y : α) (l : List α) :
    y ∈ insertAsc le x l ↔ y = x ∨ y ∈ l := by
  induction l with
  | nil => simp [insertAsc]
  | cons z zs ih =>
      simp only [insertAsc]
      by_cases h : le x z = true
      · rw [if_pos h]; simp
      · rw [if_neg h]
        simp only [List.mem_cons, ih]
        tauto

lemma mem_sortAsc {α : Type} (le : α → α → Bool) (x : α) (l : List α) :
    x ∈ sortAsc le l ↔ x ∈ l := by
  induction l with
  | nil => simp [sortAsc]
  | cons y ys ih =>
      simp only [sortAsc, mem_insertAsc, List.mem_cons, ih]

/-! ## Helper lemmas about the aggregation primitives -/

lemma optVals_eq_nil_iff (xs : List (Option ℚ)) :
    optVals xs = [] ↔ ∀ x ∈ xs, x = none := by
  induction xs with
  | nil => simp [optVals]
  | cons x rest ih =>
      cases x with
      | none =>
          simp only [optVals, List.filterMap_cons] at ih ⊢
          simp [ih]
      | some v => simp [optVals, List.filterMap_cons]

lemma foldl_min_mem (v : ℚ) (vs : List ℚ) : vs.foldl min v ∈ v :: vs := by
  induction vs generalizing v with
  | nil => simp
  | cons w ws ih =>
      have h := ih (min v w)
      rcases List.mem_cons.mp h with h' | h'
      · rcases min_choice v w with hm | hm <;> rw [List.foldl_cons, h', hm] <;>
          simp
      · simp only [List.foldl_cons, List.mem_cons]
        right; right
        exact h'

lemma foldl_min_le (v : ℚ) (vs : List ℚ) : ∀ x ∈ v :: vs, vs.foldl min v ≤ x := by
  induction vs generalizing v with
  | nil => intro x hx; simp at hx; simp [hx]
  | cons w ws ih =>
      intro x hx
      have hhead : ws.foldl min (min v w) ≤ min v w :=
        ih (min v w) (min v w) (List.mem_cons_self _ _)
      simp only [List.foldl_cons]
      rcases List.mem_cons.mp hx with h' | h'
      · subst h'; exact hhead.trans (min_le_left _ _)
      · rcases List.mem_cons.mp h' with h'' | h''
        · subst h''; exact hhead.trans (min_le_right _ _)
        · exact ih (min v w) x (List.mem_cons_of_mem _ h'')

lemma foldl_max_mem (v : ℚ) (vs : List ℚ) : vs.foldl max v ∈ v :: vs := by
  induction vs generalizing v with
  | nil => simp
  | cons w ws ih =>
      have h := ih (max v w)
      rcases List.mem_cons.mp h with h' | h'
      · rcases max_choice v w with hm | hm <;> rw [List.foldl_cons, h', hm] <;>
          simp
      · simp only [List.foldl_cons, List.mem_cons]
        right; right
        exact h'

lemma foldl_max_ge (v : ℚ) (vs : List ℚ) : ∀ x ∈ v :: vs, x ≤ vs.foldl max v := by
  induction vs generalizing v with
  | nil => intro x hx; simp at hx; simp [hx]
  | cons w ws ih =>
      intro x hx
      have hhead : max v w ≤ ws.foldl max (max v w) :=
        ih (max v w) (max v w) (List.mem_cons_self _ _)
      simp only [List.foldl_cons]
      rcases List.mem_cons.mp hx with h' | h'
      · subst h'; exact (le_max_left _ _).trans hhead
      · rcases List.mem_cons.mp h' with h'' | h''
        · subst h''; exact (le_max_right _ _).trans hhead
        · exact ih (max v w) x (List.mem_cons_of_mem _ h'')

/-! ## C1: ragged-array safety of `_safe_hourly_frame` -/

lemma fieldVals_length (hourly : List (String × Json)) (n : ℕ) (col : String) :
    (fieldVals hourly n col).length = n := by
  unfold fieldVals
  cases hv : dictGet hourly col with
  | none => simp
  | some j =>
      cases j with
      | arr xs =>
          dsimp only
          split_ifs with h
          · exact h
          · simp
      | null => simp
      | bool b => simp
      | num q => simp
      | str s => simp
      | obj kvs => simp

/-- C1: for every hourly block whose `time` member is well-formed
(absent, falsy, or an array — the hypothesis `pyTimes hourly = .ok ts`)
and every declared field list, `_safe_hourly_frame` returns without
raising; a field that is absent, non-list, or of a length different
from the `time` sequence comes out as an all-null column of the
declared length; and every column of the constructed frame has exactly
one cell per declared timestamp. -/
theorem c1_ragged_safety (hourly : List (String × Json)) (fields : List String)
    (ts : List Json) (h : pyTimes hourly = .ok ts) :
    ∃ fr, safeHourlyFrame hourly fields = .ok fr ∧
      (∀ p ∈ fr, (p.2 : List Json).length = ts.length) ∧
      (∀ f ∈ fields,
        (∀ xs, dictGet hourly f = some (Json.arr xs) →
          xs.length ≠ ts.length) →
        dictGet fr f = some (List.replicate ts.length Json.null)) := by
  refine ⟨fields.foldl
      (fun acc col => dictInsert acc col (fieldVals hourly ts.length col))
      [("time", ts)], ?_, ?_, ?_⟩
  · unfold safeHourlyFrame
    rw [h]
  · apply foldl_insert_forall
    · intro p hp
      simp only [List.mem_singleton] at hp
      rw [hp]
    · intro c _
      exact fieldVals_length hourly ts.length c
  · intro f hf hbad
    rw [foldl_insert_mem fields (fun c => fieldVals hourly ts.length c)
      [("time", ts)] f hf]
    congr 1
    unfold fieldVals
    cases hv : dictGet hourly f with
    | none => rfl
    | some j =>
        cases j with
        | arr xs => exact if_neg (hbad xs hv)
        | null => rfl
        | bool b => rfl
        | num q => rfl
        | str s => rfl
        | obj kvs => rfl

def c1Hourly : List (String × Json) :=
  [("time", Json.arr [Json.str "2025-01-01T00:00"]),
   ("pm2_5", Json.arr [])]

/-- Witness for C1: a block whose `pm2_5` array is ragged (length 0
against one timestamp) and whose `pm10` field is absent. -/
theorem c1_ragged_safety_witness :
    pyTimes c1Hourly = .ok [Json.str "2025-01-01T00:00"] ∧
    ∃ fr, safeHourlyFrame c1Hourly ["pm2_5", "pm10"] = .ok fr ∧
      (∀ p ∈ fr,
        (p.2 : List Json).length =
          ([Json.str "2025-01-01T00:00"] : List Json).length) ∧
      (∀ f ∈ ["pm2_5", "pm10"],
        (∀ xs, dictGet c1Hourly f = some (Json.arr xs) →
          xs.length ≠ ([Json.str "2025-01-01T00:00"] : List Json).length) →
        dictGet fr f =
          some (List.replicate
            ([Json.str "2025-01-01T00:00"] : List Json).length Json.null)) :=
  ⟨rfl, c1_ragged_safety c1Hourly ["pm2_5", "pm10"] _ rfl⟩

/-! ## C2: the PM2.5 threshold ladder -/

lemma pmSeverity_categorize (v : ℚ) :
    pmSeverity (categorizePM25 (some v)) =
      if v ≤ 12 then 0 else if v ≤ 35.4 then 1 else if v ≤ 55.4 then 2
      else if v ≤ 150.4 then 3 else if v ≤ 250.4 then 4 else 5 := by
  simp only [categorizePM25]
  split_ifs <;> rfl

/-- C2: PM2.5 categorization is the fixed threshold ladder with
lower-inclusive boundaries — for every non-null `v` the produced
category ("Baik" = Good, "Sedang" = Moderate, "Tidak sehat (sensitif)"
= Unhealthy for sensitive groups, "Tidak sehat" = Unhealthy, "Sangat
tidak sehat" = Very unhealthy, "Berbahaya" = Hazardous) is
characterized exactly by the interval bounds, a null value maps to the
unknown category, severity is monotonic non-decreasing in `v`, and the
transform-stage and report-stage implementations agree. -/
theorem c2_pm25_ladder :
    (categorizePM25 none = "Tidak diketahui") ∧
    (∀ v : ℚ, (categorizePM25 (some v) = "Baik" ↔ v ≤ 12)
      ∧ (categorizePM25 (some v) = "Sedang" ↔ 12 < v ∧ v ≤ 35.4)
      ∧ (categorizePM25 (some v) = "Tidak sehat (sensitif)" ↔
          35.4 < v ∧ v ≤ 55.4)
      ∧ (categorizePM25 (some v) = "Tidak sehat" ↔ 55.4 < v ∧ v ≤ 150.4)
      ∧ (categorizePM25 (some v) = "Sangat tidak sehat" ↔
          150.4 < v ∧ v ≤ 250.4)
      ∧ (categorizePM25 (some v) = "Berbahaya" ↔ 250.4 < v)) ∧
    (∀ v w : ℚ, v ≤ w →
      pmSeverity (categorizePM25 (some v)) ≤
        pmSeverity (categorizePM25 (some w))) ∧
    (∀ o : Option ℚ, categorizePM25 o = pm25Category o) := by
  refine ⟨rfl, ?_, ?_, ?_⟩
  · intro v
    refine ⟨?_, ?_, ?_, ?_, ?_, ?_⟩ <;>
      (simp only [categorizePM25]; split_ifs with h1 h2 h3 h4 h5 <;>
        constructor <;> intro h <;>
        first
          | rfl
          | assumption
          | (constructor <;> linarith)
          | (exact absurd h (by decide))
          | (exfalso; rcases h with ⟨h', h''⟩; linarith)
          | (exfalso; linarith)
          | linarith)
  · intro v w hvw
    rw [pmSeverity_categorize, pmSeverity_categorize]
    split_ifs <;> first | omega | linarith
  · intro o
    cases o <;> rfl

/-- Witness for C2 at concrete inputs. -/
theorem c2_pm25_ladder_witness :
    (10 : ℚ) ≤ 200 ∧
      pmSeverity (categorizePM25 (some 10)) ≤
        pmSeverity (categorizePM25 (some 200)) :=
  ⟨by decide, c2_pm25_ladder.2.2.1 10 200 (by decide)⟩

/-! ## C3: the daily aggregation null policy -/

lemma allNone_map_iff (g : List HRow) (f : HRow → Option ℚ) :
    optVals (g.map f) = [] ↔ ∀ x ∈ g, f x = none := by
  rw [optVals_eq_nil_iff]
  simp

lemma aggMin_none_iff (xs : List (Option ℚ)) :
    aggMin xs = none ↔ optVals xs = [] := by
  unfold aggMin
  cases h : optVals xs <;> simp [h]

lemma aggMax_none_iff (xs : List (Option ℚ)) :
    aggMax xs = none ↔ optVals xs = [] := by
  unfold aggMax
  cases h : optVals xs <;> simp [h]

lemma aggMean_none_iff (xs : List (Option ℚ)) :
    aggMean xs = none ↔ optVals xs = [] := by
  unfold aggMean
  cases h : optVals xs <;> simp [h]

lemma aggMin_some (xs : List (Option ℚ)) (m : ℚ) (h : aggMin xs = some m) :
    m ∈ optVals xs ∧ ∀ v ∈ optVals xs, m ≤ v := by
  unfold aggMin at h
  cases hv : optVals xs with
  | nil => rw [hv] at h; simp at h
  | cons v vs =>
      rw [hv] at h
      simp only [Option.some.injEq] at h
      subst h
      refine ⟨hv ▸ foldl_min_mem v vs, ?_⟩
      intro x hx
      exact foldl_min_le v vs x (hv ▸ hx)

lemma aggMax_some (xs : List (Option ℚ)) (m : ℚ) (h : aggMax xs = some m) :
    m ∈ optVals xs ∧ ∀ v ∈ optVals xs, v ≤ m := by
  unfold aggMax at h
  cases hv : optVals xs with
  | nil => rw [hv] at h; simp at h
  | cons v vs =>
      rw [hv] at h
      simp only [Option.some.injEq] at h
      subst h
      refine ⟨hv ▸ foldl_max_mem v vs, ?_⟩
      intro x hx
      exact foldl_max_ge v vs x (hv ▸ hx)

lemma aggMean_some (xs : List (Option ℚ)) (h : optVals xs ≠ []) :
    aggMean xs = some ((optVals xs).sum / ((optVals xs).length : ℚ)) := by
  unfold aggMean
  cases hv : optVals xs with
  | nil => exact absurd hv h
  | cons v vs => rfl

/-- C3: in every calendar-date group of the joined hourly table,
`temp_min`/`temp_max` are the NaN-skipping minimum/maximum of the
hourly temperatures (null exactly when all are null), `total_rain` is
the sum of the hourly rain treating null as 0 — so it is 0, never
null, even when every rain value of the group is null — and
`pm25_avg`/`pm10_avg` are the arithmetic means of the non-null values,
null (not 0) when there is no non-null observation. -/
theorem c3_daily_null_policy (rows : List HRow) (r : DailyRaw)
    (hr : r ∈ dailyAggRaw rows) :
    (r.temp_min = none ↔ ∀ x ∈ dateGroup rows r.date, x.temp = none) ∧
    (∀ m, r.temp_min = some m →
      m ∈ optVals ((dateGroup rows r.date).map HRow.temp) ∧
      ∀ v ∈ optVals ((dateGroup rows r.date).map HRow.temp), m ≤ v) ∧
    (r.temp_max = none ↔ ∀ x ∈ dateGroup rows r.date, x.temp = none) ∧
    (∀ m, r.temp_max = some m →
      m ∈ optVals ((dateGroup rows r.date).map HRow.temp) ∧
      ∀ v ∈ optVals ((dateGroup rows r.date).map HRow.temp), v ≤ m) ∧
    (r.total_rain = (optVals ((dateGroup rows r.date).map HRow.rain)).sum) ∧
    ((∀ x ∈ dateGroup rows r.date, x.rain = none) → r.total_rain = 0) ∧
    (r.pm25_avg = none ↔ ∀ x ∈ dateGroup rows r.date, x.pm25 = none) ∧
    (optVals ((dateGroup rows r.date).map HRow.pm25) ≠ [] →
      r.pm25_avg = some
        ((optVals ((dateGroup rows r.date).map HRow.pm25)).sum /
          ((optVals ((dateGroup rows r.date).map HRow.pm25)).length : ℚ))) ∧
    (r.pm10_avg = none ↔ ∀ x ∈ dateGroup rows r.date, x.pm10 = none) ∧
    (optVals ((dateGroup rows r.date).map HRow.pm10) ≠ [] →
      r.pm10_avg = some
        ((optVals ((dateGroup rows r.date).map HRow.pm10)).sum /
          ((optVals ((dateGroup rows r.date).map HRow.pm10)).length : ℚ))) := by
  obtain ⟨d, hd, rfl⟩ := List.mem_map.mp hr
  dsimp only
  refine ⟨?_, ?_, ?_, ?_, rfl, ?_, ?_, ?_, ?_, ?_⟩
  · exact (aggMin_none_iff _).trans (allNone_map_iff _ _)
  · intro m hm
    exact aggMin_some _ m hm
  · exact (aggMax_none_iff _).trans (allNone_map_iff _ _)
  · intro m hm
    exact aggMax_some _ m hm
  · intro hall
    unfold aggSum
    rw [(allNone_map_iff _ _).mpr hall]
    rfl
  · exact (aggMean_none_iff _).trans (allNone_map_iff _ _)
  · intro hne
    exact aggMean_some _ hne
  · exact (aggMean_none_iff _).trans (allNone_map_iff _ _)
  · intro hne
    exact aggMean_some _ hne

/-! ## C5 (amended): when the transform raises -/

/-- C5 (amended): `transform.run` raises the missing-input error
whenever the weather raw file **or** the air raw file is absent (the
source checks `not weather_path.exists() or not air_path.exists()`),
and for inputs where both files are present as JSON objects whose
hourly blocks (when present) are objects with well-formed `time`
members — and whose daily block, if it triggers the metadata merge,
has a well-formed `time` member — the transform does not raise:
ragged, missing, or unparseable fields are degraded to null. -/
theorem c5_missing_input_policy :
    (∀ fs : FileState, fs.rawWeather = none ∨ fs.rawAir = none →
      transformStep fs = .error TErr.missingInput) ∧
    (∀ (fs : FileState) (w a : Json) (wts ats : List Json),
      fs.rawWeather = some w → fs.rawAir = some a →
      w.isObj = true → a.isObj = true →
      ((w.get "hourly").getD (Json.obj [])).isObj = true →
      ((a.get "hourly").getD (Json.obj [])).isObj = true →
      pyTimes ((w.get "hourly").getD (Json.obj [])).objFields = .ok wts →
      pyTimes ((a.get "hourly").getD (Json.obj [])).objFields = .ok ats →
      (sunCondb (wDailyOf w) = true →
        ∃ dts, pyTimes (wDailyOf w).objFields = .ok dts) →
      ∃ fs', transformStep fs = .ok fs') := by
  constructor
  · intro fs hmiss
    rcases fs with ⟨ow, oa, pd⟩
    rcases hmiss with h | h <;> simp only at h <;> subst h
    · rfl
    · cases ow <;> rfl
  · intro fs w a wts ats hw ha hwo hao hwh hah hwt hat hsun
    rcases fs with ⟨ow, oa, pd⟩
    simp only at hw ha
    subst hw
    subst ha
    have hcore : ∃ t, runDailyCore w a = .ok t := by
      unfold runDailyCore
      rw [hwo, hao]
      simp only [if_true, bind, Except.bind, pure, Except.pure]
      rw [hwh, hah]
      simp only [if_true]
      have hsw : safeHourlyFrame ((w.get "hourly").getD (Json.obj [])).objFields
          ["temperature_2m", "precipitation"] =
          .ok (["temperature_2m", "precipitation"].foldl
            (fun acc col => dictInsert acc col
              (fieldVals ((w.get "hourly").getD (Json.obj [])).objFields
                wts.length col)) [("time", wts)]) := by
        unfold safeHourlyFrame
        rw [hwt]
      have hsa : safeHourlyFrame ((a.get "hourly").getD (Json.obj [])).objFields
          ["pm2_5", "pm10"] =
          .ok (["pm2_5", "pm10"].foldl
            (fun acc col => dictInsert acc col
              (fieldVals ((a.get "hourly").getD (Json.obj [])).objFields
                ats.length col)) [("time", ats)]) := by
        unfold safeHourlyFrame
        rw [hat]
      rw [hsw, hsa]
      cases hc : sunCondb (wDailyOf w) with
      | true =>
          obtain ⟨dts, hdts⟩ := hsun hc
          simp only [hc, if_true, hdts]
          exact ⟨_, rfl⟩
      | false =>
          simp only [hc, Bool.false_eq_true, if_false]
          exact ⟨_, rfl⟩
    obtain ⟨t, ht⟩ := hcore
    refine ⟨{ rawWeather := some w, rawAir := some a,
              processedDaily := some (dailyCsv t) }, ?_⟩
    unfold transformStep
    dsimp only
    rw [ht]

/-! ## C6 (amended): fetch fallback semantics -/

/-- C6 (amended): with fallback enabled, when the network fetch fails
after retries, `fetch.run` silently substitutes the offline sample
when one exists (completing the run and its four writes without
raising); when no sample exists, the error that propagates is
`_load_sample`'s `FileNotFoundError` (`sampleMissing`), not the
network error. -/
theorem c6_fallback_semantics (args : FetchArgs) (env : FetchEnv)
    (hdays : ¬(args.days < 1 ∨ 16 < args.days))
    (hoff : args.offline = false)
    (hgeo : env.geocodeOk = true)
    (hnet : env.netResult = .error ())
    (hfb : args.fallback = true) :
    (∀ b, env.sample = some b →
      fetchRun args env =
        ([(RawFile.weatherTs, b.weather), (RawFile.airTs, b.air),
          (RawFile.weatherLatest, b.weather), (RawFile.airLatest, b.air)],
         .ok b)) ∧
    (env.sample = none →
      fetchRun args env = ([], .error FErr.sampleMissing)) := by
  constructor
  · intro b hb
    unfold fetchRun fetchData
    rw [if_neg hdays]
    simp [hoff, hgeo, hnet, hfb, hb]
  · intro hb
    unfold fetchRun fetchData
    rw [if_neg hdays]
    simp [hoff, hgeo, hnet, hfb, hb]

/-! ## C8: determinism/idempotence of the daily transform -/

/-- C8: the transform never modifies its raw inputs, and running it a
second time over the same raw files succeeds and writes a
byte-for-byte identical daily CSV. -/
theorem c8_transform_deterministic (fs fs' : FileState)
    (h : transformStep fs = .ok fs') :
    fs'.rawWeather = fs.rawWeather ∧ fs'.rawAir = fs.rawAir ∧
    ∃ fs'', transformStep fs' = .ok fs'' ∧
      fs''.processedDaily = fs'.processedDaily := by
  rcases fs with ⟨ow, oa, pd⟩
  cases ow with
  | none => simp [transformStep] at h
  | some w =>
      cases oa with
      | none => simp [transformStep] at h
      | some a =>
          unfold transformStep at h
          dsimp only at h
          cases hrc : runDailyCore w a with
          | error e => rw [hrc] at h; simp at h
          | ok t =>
              rw [hrc] at h
              simp only [Except.ok.injEq] at h
              subst h
              refine ⟨rfl, rfl, ?_⟩
              refine ⟨_, ?_, rfl⟩
              unfold transformStep
              dsimp only
              rw [hrc]

/-! ## C9: per-city failure isolation of the comparison -/

/-- C9: for at least two requested cities, every city is processed
regardless of other cities' outcomes — the results list has exactly
one entry per requested city, in order, and a failed city's error
message is recorded in its entry — and the comparison as a whole
returns the results exactly when at least two cities produced data
(and the "not enough" error exactly when fewer than two did). -/
theorem c9_compare_isolation {α : Type} (cities : List String)
    (fetchr : String → Except String (List α))
    (hlen : 2 ≤ cities.length) :
    ((cityResults cities fetchr).map (fun r => r.name) = cities) ∧
    (∀ c ∈ cities, ∀ msg, fetchr c = .error msg →
      ({ name := c, daily := [], error := some msg } : CityResult α) ∈
        cityResults cities fetchr) ∧
    (compareRun cities fetchr = .ok (cityResults cities fetchr) ↔
      2 ≤ ((cityResults cities fetchr).filter
        (fun r => !r.daily.isEmpty)).length) ∧
    (compareRun cities fetchr = .error CErr.notEnough ↔
      ((cityResults cities fetchr).filter
        (fun r => !r.daily.isEmpty)).length < 2) := by
  have hnot : ¬ cities.length < 2 := by omega
  refine ⟨?_, ?_, ?_, ?_⟩
  · unfold cityResults
    rw [List.map_map]
    have hcongr : ∀ c ∈ cities,
        ((fun r => CityResult.name r) ∘ fun c =>
          match fetchr c with
          | .ok records =>
              ({ name := c, daily := records, error := none } : CityResult α)
          | .error msg =>
              ({ name := c, daily := [], error := some msg } : CityResult α)) c
          = c := by
      intro c _
      dsimp only [Function.comp]
      cases fetchr c <;> rfl
    rw [List.map_congr_left hcongr]
    exact List.map_id' cities
  · intro c hc msg hmsg
    unfold cityResults
    refine List.mem_map.mpr ⟨c, hc, ?_⟩
    rw [hmsg]
  · unfold compareRun
    rw [if_neg hnot]
    by_cases hcnt : ((cityResults cities fetchr).filter
        (fun r => !r.daily.isEmpty)).length < 2
    · rw [if_pos hcnt]
      constructor
      · intro h
        simp at h
      · intro h
        omega
    · rw [if_neg hcnt]
      constructor
      · intro _
        omega
      · intro _
        rfl
  · unfold compareRun
    rw [if_neg hnot]
    by_cases hcnt : ((cityResults cities fetchr).filter
        (fun r => !r.daily.isEmpty)).length < 2
    · rw [if_pos hcnt]
      constructor
      · intro _
        exact hcnt
      · intro _
        rfl
    · rw [if_neg hcnt]
      constructor
      · intro h
        simp at h
      · intro h
        omega

/-! ## C7 (amended): columns of the hourly-only variant -/

lemma dictGet_mem {α : Type} (l : List (String × α)) (k : String) (v : α)
    (h : dictGet l k = some v) : (k, v) ∈ l := by
  induction l with
  | nil => simp [dictGet] at h
  | cons p rest ih =>
      unfold dictGet at h
      cases hr : dictGet rest k with
      | some w =>
          rw [hr] at h
          simp only [Option.some.injEq] at h
          subst h
          exact List.mem_cons_of_mem _ (ih hr)
      | none =>
          rw [hr] at h
          by_cases hp : p.1 = k
          · rw [if_pos hp] at h
            simp only [Option.some.injEq] at h
            subst h
            have : p = (k, p.2) := by
              rw [← hp]
            rw [← this]
            exact List.mem_cons_self _ _
          · rw [if_neg hp] at h
            simp at h

lemma getD_null_of_all (vs : List Json) (i : ℕ)
    (h : ∀ c ∈ vs, c = Json.null) : vs.getD i Json.null = Json.null := by
  rw [List.getD_eq_getElem?_getD]
  cases hg : vs[i]? with
  | none => rfl
  | some c => simp [h c (List.getElem?_mem hg)]

lemma dictGet_frameRow (f : Frame) (i : ℕ) (k : String) :
    dictGet (frameRow f i) k =
      (dictGet f k).map (fun vs => vs.getD i Json.null) := by
  unfold frameRow
  exact dictGet_map_entry f (fun _ vs => vs.getD i Json.null) k

lemma rowGet_frameRows_null (l : Frame) (nm : String)
    (hl : ∀ p ∈ l, p.1 = nm → ∀ c ∈ p.2, c = Json.null) :
    ∀ lr ∈ frameRows l, rowGet lr nm = Json.null := by
  intro lr hlr
  unfold frameRows at hlr
  obtain ⟨i, _, rfl⟩ := List.mem_map.mp hlr
  unfold rowGet
  rw [dictGet_frameRow]
  cases hg : dictGet l nm with
  | none => rfl
  | some vs =>
      have hmem := dictGet_mem l nm vs hg
      exact getD_null_of_all vs i (hl _ hmem rfl)

lemma frameNames_renameCols (f : Frame) (ren : List (String × String)) :
    frameNames (renameCols f ren) =
      (frameNames f).map (fun n => (dictGet ren n).getD n) := by
  unfold frameNames renameCols
  rw [List.map_map, List.map_map]
  rfl

/-- If the left frame's column `nm` is all-null, `nm` is not a merge
key, and the right frame has no column `nm`, then every merged row has
a null `nm` cell. -/
lemma mergeOuter_col_null (l r : Frame) (nm : String)
    (hl : ∀ p ∈ l, p.1 = nm → ∀ c ∈ p.2, c = Json.null)
    (hnm : nm ≠ "time")
    (hr : nm ∉ frameNames r) :
    ∀ row ∈ mergeOuter l r, rowGet row nm = Json.null := by
  have hnmF : nm ∉ (frameNames r).filter (fun x => x ≠ "time") := by
    intro hmem
    exact hr (List.mem_of_mem_filter hmem)
  have hext : ∀ (f : String → Json),
      dictGet (((frameNames r).filter (fun x => x ≠ "time")).map
        (fun n => (n, f n))) nm = none := by
    intro f
    rw [dictGet_ofNames]
    exact if_neg hnmF
  intro row hrow
  unfold mergeOuter at hrow
  rcases List.mem_append.mp hrow with hleft | hright
  · obtain ⟨lr, hlr, hmem2⟩ := List.mem_flatMap.mp hleft
    have hlrGet := rowGet_frameRows_null l nm hl lr hlr
    by_cases hms : ((frameRows r).filter (fun rr =>
        jsonEqb (rowGet rr "time") (rowGet lr "time"))).isEmpty = true
    · rw [if_pos hms] at hmem2
      simp only [List.mem_singleton] at hmem2
      subst hmem2
      unfold rowGet at hlrGet ⊢
      rw [dictGet_append, hext, Option.none_or]
      exact hlrGet
    · rw [if_neg hms] at hmem2
      obtain ⟨rr, _, rfl⟩ := List.mem_map.mp hmem2
      unfold rowGet at hlrGet ⊢
      rw [dictGet_append, hext, Option.none_or]
      exact hlrGet
  · obtain ⟨rr, _, rfl⟩ := List.mem_map.mp hright
    unfold rowGet
    rw [dictGet_append, hext, Option.none_or, dictGet_ofNames]
    by_cases hin : nm ∈ frameNames l
    · rw [if_pos hin, if_neg hnm]
      rfl
    · rw [if_neg hin]
      rfl

lemma rowGet_coerce_null (numCols : List String) (row : List (String × Json))
    (nm : String) (h : rowGet row nm = Json.null) :
    rowGet (coerceNumericRow numCols row) nm = Json.null := by
  unfold rowGet at h
  unfold rowGet coerceNumericRow
  rw [dictGet_map_entry row
    (fun k v => if k ∈ numCols then
      (match toNumeric v with
       | some q => Json.num q
       | none => Json.null)
     else v) nm]
  cases hg : dictGet row nm with
  | none => rfl
  | some c =>
      rw [hg] at h
      simp only [Option.getD_some] at h
      subst h
      by_cases hin : nm ∈ numCols <;> simp [hin, toNumeric]

lemma rowGet_append_ne (row : List (String × Json)) (k nm : String) (d : Json)
    (h : nm ≠ k) : rowGet (row ++ [(k, d)]) nm = rowGet row nm := by
  unfold rowGet
  rw [dictGet_append]
  simp [dictGet, Ne.symm h, Option.or]

/-- If the requested weather field `src` (renamed to `out`) is absent
from the hourly block, the renamed weather frame's `out` column is
all-null. -/
lemma c7_left_frame_null (wkv : List (String × Json)) (wts : List Json)
    (src out : String)
    (hout : ∀ f ∈ hourlyWFields,
      (dictGet hourlyWRen f).getD f = out → f = src)
    (habs : dictGet wkv src = none)
    (houtTime : out ≠ "time") :
    ∀ p ∈ renameCols (hourlyWFields.foldl
        (fun acc col => dictInsert acc col (fieldVals wkv wts.length col))
        [("time", wts)]) hourlyWRen,
      p.1 = out → ∀ c' ∈ p.2, c' = Json.null := by
  intro p hp hp1 c' hc'
  unfold renameCols at hp
  obtain ⟨q, hq, rfl⟩ := List.mem_map.mp hp
  have hP := foldl_insert_forall hourlyWFields
    (fun col => fieldVals wkv wts.length col) [("time", wts)]
    (fun q => q = ("time", wts) ∨
      (q.1 ∈ hourlyWFields ∧ q.2 = fieldVals wkv wts.length q.1))
    (by
      intro p' hp'
      simp only [List.mem_singleton] at hp'
      exact Or.inl hp')
    (by
      intro c'' hc''
      exact Or.inr ⟨hc'', rfl⟩)
    q hq
  dsimp only at hp1 hc'
  rcases hP with hq0 | ⟨hqf, hqv⟩
  · rw [hq0] at hp1
    exact absurd (hp1.symm.trans rfl) houtTime
  · have hfs := hout q.1 hqf hp1
    rw [hfs] at hqv
    rw [hqv] at hc'
    unfold fieldVals at hc'
    rw [habs] at hc'
    exact List.eq_of_mem_replicate hc'

set_option maxHeartbeats 1600000 in
/-- C7 (amended): for well-formed inputs the hourly output always
contains all ten columns, in order — the required time, temp, rain,
pm25, pm10 and the optional rh, wind, feels_like, wcode (plus the
derived date) — and an optional column whose source field is absent
from the weather hourly block is present but all-null, not dropped. -/
theorem c7_hourly_optional_columns (weather air : Json)
    (wkv akv : List (String × Json)) (wts ats : List Json)
    (hwo : weather.isObj = true) (hao : air.isObj = true)
    (hwh : (weather.get "hourly").getD (Json.obj []) = Json.obj wkv)
    (hah : (air.get "hourly").getD (Json.obj []) = Json.obj akv)
    (hwt : pyTimes wkv = .ok wts) (hat : pyTimes akv = .ok ats) :
    ∃ t, runHourlyCore weather air = .ok t ∧
      t.names = ["time", "temp", "rain", "rh", "wind", "feels_like",
                 "wcode", "pm25", "pm10", "date"] ∧
      (∀ src out, (src, out) ∈ [("relative_humidity_2m", "rh"),
          ("wind_speed_10m", "wind"), ("apparent_temperature", "feels_like"),
          ("weather_code", "wcode")] →
        dictGet wkv src = none →
        ∀ c ∈ hourlyColumn t out, c = Json.null) := by
  have hsw : safeHourlyFrame wkv hourlyWFields =
      .ok (hourlyWFields.foldl
        (fun acc col => dictInsert acc col (fieldVals wkv wts.length col))
        [("time", wts)]) := by
    unfold safeHourlyFrame
    rw [hwt]
  have hsa : safeHourlyFrame akv ["pm2_5", "pm10"] =
      .ok (["pm2_5", "pm10"].foldl
        (fun acc col => dictInsert acc col (fieldVals akv ats.length col))
        [("time", ats)]) := by
    unfold safeHourlyFrame
    rw [hat]
  have hn0 : frameNames (hourlyWFields.foldl
      (fun acc col => dictInsert acc col (fieldVals wkv wts.length col))
      [("time", wts)]) = "time" :: hourlyWFields := by
    unfold frameNames
    rw [frameNames_foldl_insert _ _ _ (by decide)
      (by
        intro f hf
        simp only [List.map_cons, List.map_nil, List.mem_singleton]
        fin_cases hf <;> decide)]
    rfl
  have hna0 : frameNames (["pm2_5", "pm10"].foldl
      (fun acc col => dictInsert acc col (fieldVals akv ats.length col))
      [("time", ats)]) = ["time", "pm2_5", "pm10"] := by
    unfold frameNames
    rw [frameNames_foldl_insert _ _ _ (by decide)
      (by
        intro f hf
        simp only [List.map_cons, List.map_nil, List.mem_singleton]
        fin_cases hf <;> decide)]
    rfl
  have hnw : frameNames (renameCols (hourlyWFields.foldl
      (fun acc col => dictInsert acc col (fieldVals wkv wts.length col))
      [("time", wts)]) hourlyWRen) =
      ["time", "temp", "rain", "rh", "wind", "feels_like", "wcode"] := by
    rw [frameNames_renameCols, hn0]
    rfl
  have hna : frameNames (renameCols (["pm2_5", "pm10"].foldl
      (fun acc col => dictInsert acc col (fieldVals akv ats.length col))
      [("time", ats)]) [("pm2_5", "pm25"), ("pm10", "pm10")]) =
      ["time", "pm25", "pm10"] := by
    rw [frameNames_renameCols, hna0]
    rfl
  refine ⟨{ names := ["time", "temp", "rain", "rh", "wind", "feels_like",
                      "wcode", "pm25", "pm10", "date"]
            rows := ((sortByTime (mergeOuter
                (renameCols (hourlyWFields.foldl
                  (fun acc col => dictInsert acc col
                    (fieldVals wkv wts.length col)) [("time", wts)])
                  hourlyWRen)
                (renameCols (["pm2_5", "pm10"].foldl
                  (fun acc col => dictInsert acc col
                    (fieldVals akv ats.length col)) [("time", ats)])
                  [("pm2_5", "pm25"), ("pm10", "pm10")]))).map
              (coerceNumericRow ["temp", "rain", "rh", "wind", "feels_like",
                                 "pm25", "pm10"])).filterMap
              (fun r => (parseDateJson (rowGet r "time")).map
                (fun d => r ++ [("date", Json.str (dateToStr d))])) },
    ?_, rfl, ?_⟩
  · unfold runHourlyCore
    rw [hwo, hao]
    simp only [if_true, bind, Except.bind, pure, Except.pure]
    rw [hwh, hah]
    dsimp only [Json.isObj, Json.objFields]
    rw [hsw, hsa]
    rfl
  · intro src out hpair habs c hc
    have hfacts : (∀ f ∈ hourlyWFields,
        (dictGet hourlyWRen f).getD f = out → f = src) ∧
        out ≠ "time" ∧ out ∉ ["time", "pm25", "pm10"] ∧ out ≠ "date" := by
      fin_cases hpair <;>
        exact ⟨by decide, by decide, by decide, by decide⟩
    unfold hourlyColumn at hc
    dsimp only at hc
    obtain ⟨row, hrow, rfl⟩ := List.mem_map.mp hc
    obtain ⟨row0, hrow0, hfm⟩ := List.mem_filterMap.mp hrow
    obtain ⟨d, _, hrfl⟩ := Option.map_eq_some'.mp hfm
    subst hrfl
    obtain ⟨row1, hrow1, rfl⟩ := List.mem_map.mp hrow0
    unfold sortByTime at hrow1
    rw [mem_sortAsc] at hrow1
    have h1 := mergeOuter_col_null _ _ out
      (c7_left_frame_null wkv wts src out hfacts.1 habs hfacts.2.1)
      hfacts.2.1 (by rw [hna]; exact hfacts.2.2.1) row1 hrow1
    have h2 := rowGet_coerce_null
      ["temp", "rain", "rh", "wind", "feels_like", "pm25", "pm10"]
      row1 out h1
    rw [rowGet_append_ne]
    · exact h2
    · exact hfacts.2.2.2

/-! ## C10: fetch persistence atomicity -/

/-- C10: whenever `fetch.run` raises (invalid day count, geocoding
failure, network failure without a usable fallback sample, missing
offline sample), no raw file has been written; every successful run
writes exactly four files — timestamped and "latest" copies of the
weather and air documents — all from the same fetched bundle. -/
theorem c10_fetch_atomicity (args : FetchArgs) (env : FetchEnv) :
    ((∃ e, (fetchRun args env).2 = .error e) → (fetchRun args env).1 = []) ∧
    (∀ b, (fetchRun args env).2 = .ok b →
      (fetchRun args env).1 =
        [(RawFile.weatherTs, b.weather), (RawFile.airTs, b.air),
         (RawFile.weatherLatest, b.weather), (RawFile.airLatest, b.air)]) := by
  unfold fetchRun
  by_cases hd : args.days < 1 ∨ 16 < args.days
  · rw [if_pos hd]
    exact ⟨fun _ => rfl, fun b hb => by simp at hb⟩
  · rw [if_neg hd]
    cases hdata : fetchData args env with
    | ok b =>
        refine ⟨?_, ?_⟩
        · rintro ⟨e, he⟩
          simp at he
        · intro b' hb'
          simp only at hb'
          simp only [Except.ok.injEq] at hb'
          subst hb'
          rfl
    | error e =>
        refine ⟨fun _ => rfl, ?_⟩
        intro b hb
        simp at hb

/-! ## Concrete evaluations: the C4 scenario, witnesses and
counterexamples.

The arithmetic of `ℚ` (`Rat.add` and friends) is `@[irreducible]` in
this toolchain, which blocks `decide`/`rfl` evaluation; within this
section those operations are restored to their normal reducibility so
the pipeline can be evaluated on concrete inputs. -/

section ConcreteEval

set_option allowUnsafeReducibility true
attribute [local semireducible] Rat.add Rat.mul Rat.inv Rat.sub Rat.ofScientific

/-- The weather document of the spec's end-to-end scenario. -/
def c4Weather : Json := .obj [("hourly", .obj
  [("time", .arr [.str "2025-01-01T00:00", .str "2025-01-01T01:00"]),
   ("temperature_2m", .arr [.num 20, .num 24]),
   ("precipitation", .arr [.num 0, .num 1.5])])]

/-- The air-quality document of the spec's end-to-end scenario. -/
def c4Air : Json := .obj [("hourly", .obj
  [("time", .arr [.str "2025-01-01T00:00", .str "2025-01-01T01:00"]),
   ("pm2_5", .arr [.num 10, .num 14]),
   ("pm10", .arr [.num 20, .num 22])])]

/-- C4: on the spec's end-to-end input the daily transform produces
exactly one row — date 2025-01-01, temp_min 20, temp_max 24,
total_rain 1.5, pm25_avg 12, pm10_avg 21, category "Baik" (Good) —
with no sunrise/sunset columns. -/
theorem c4_end_to_end :
    runDailyCore c4Weather c4Air = .ok
      { withSun := false
        rows := [{ date := ⟨2025, 1, 1⟩, temp_min := some 20,
                   temp_max := some 24, total_rain := 1.5,
                   pm25_avg := some 12, pm10_avg := some 21,
                   pm25_category := "Baik", sunrise := none,
                   sunset := none }] } := by
  rfl

def c3Rows : List HRow :=
  [{ date := ⟨2025, 1, 1⟩, temp := some 20, rain := none, pm25 := none,
     pm10 := some 10 },
   { date := ⟨2025, 1, 1⟩, temp := some 24, rain := none, pm25 := some 14,
     pm10 := none }]

def c3Agg : DailyRaw :=
  { date := ⟨2025, 1, 1⟩, temp_min := some 20, temp_max := some 24,
    total_rain := 0, pm25_avg := some 14, pm10_avg := some 10 }

/-- Witness for C3: a group whose rain values are all null aggregates
to `total_rain = 0`, not null. -/
theorem c3_daily_null_policy_witness :
    c3Agg ∈ dailyAggRaw c3Rows ∧
    (∀ x ∈ dateGroup c3Rows c3Agg.date, x.rain = none) ∧
    c3Agg.total_rain = 0 :=
  ⟨by decide, by decide,
   (c3_daily_null_policy c3Rows c3Agg (by decide)).2.2.2.2.2.1 (by decide)⟩

def c5W : Json := Json.obj [("hourly", Json.obj
  [("time", Json.arr [Json.str "2025-01-01T00:00"]),
   ("temperature_2m", Json.arr [Json.num 1, Json.num 2])])]

def c5A : Json := Json.obj [("hourly", Json.obj [])]

def c5Fs : FileState :=
  { rawWeather := some c5W, rawAir := some c5A, processedDaily := none }

/-- Witness for C5 (amended): both files present, with a ragged
`temperature_2m` and an air document with no data at all — the
transform succeeds. -/
theorem c5_missing_input_policy_witness :
    ∃ fs', transformStep c5Fs = .ok fs' :=
  c5_missing_input_policy.2 c5Fs c5W c5A [Json.str "2025-01-01T00:00"] []
    rfl rfl rfl rfl rfl rfl rfl rfl
    (fun h => absurd h (by decide))

/-- Counterexample for C5 as stated: with the weather file missing but
the air file present — so it is not the case that *neither* document
exists — the transform still raises `MissingInputError`. -/
def c5BadFs : FileState :=
  { rawWeather := none, rawAir := some (Json.obj []),
    processedDaily := none }

theorem c5_counterexample :
    transformStep c5BadFs = .error TErr.missingInput ∧
    c5BadFs.rawAir.isSome = true :=
  ⟨rfl, rfl⟩

def c6Bundle : Bundle := { weather := Json.obj [], air := Json.obj [] }

/-- Witness for C6 (amended): network failure with fallback enabled
and a sample present — the run completes silently with the sample. -/
theorem c6_fallback_semantics_witness :
    fetchRun ⟨7, false, true⟩
        { geocodeOk := true, netResult := .error (),
          sample := some c6Bundle } =
      ([(RawFile.weatherTs, c6Bundle.weather), (RawFile.airTs, c6Bundle.air),
        (RawFile.weatherLatest, c6Bundle.weather),
        (RawFile.airLatest, c6Bundle.air)], .ok c6Bundle) :=
  (c6_fallback_semantics ⟨7, false, true⟩
    { geocodeOk := true, netResult := .error (), sample := some c6Bundle }
    (by decide) rfl rfl rfl rfl).1 c6Bundle rfl

/-- Counterexample for C6 as stated: network failure with fallback
enabled and no sample — the propagated error is the sample-missing
`FileNotFoundError`, not the network error (the claim says the network
error propagates). -/
theorem c6_counterexample :
    fetchRun ⟨7, false, true⟩
        { geocodeOk := true, netResult := .error (), sample := none } =
      ([], .error FErr.sampleMissing) ∧
    FErr.sampleMissing ≠ FErr.network :=
  ⟨rfl, by decide⟩

def c7Wkv : List (String × Json) :=
  [("time", Json.arr [Json.str "2025-01-01T00:00"]),
   ("temperature_2m", Json.arr [Json.num 20])]

def c7Akv : List (String × Json) :=
  [("time", Json.arr [Json.str "2025-01-01T00:00"]),
   ("pm2_5", Json.arr [Json.num 10]),
   ("pm10", Json.arr [Json.num 30])]

def c7W : Json := Json.obj [("hourly", Json.obj c7Wkv)]

def c7A : Json := Json.obj [("hourly", Json.obj c7Akv)]

/-- Witness for C7 (amended), at an input whose weather block carries
only `time` and `temperature_2m`. -/
theorem c7_hourly_optional_columns_witness :
    ∃ t, runHourlyCore c7W c7A = .ok t ∧
      t.names = ["time", "temp", "rain", "rh", "wind", "feels_like",
                 "wcode", "pm25", "pm10", "date"] ∧
      (∀ src out, (src, out) ∈ [("relative_humidity_2m", "rh"),
          ("wind_speed_10m", "wind"), ("apparent_temperature", "feels_like"),
          ("weather_code", "wcode")] →
        dictGet c7Wkv src = none →
        ∀ c ∈ hourlyColumn t out, c = Json.null) :=
  c7_hourly_optional_columns c7W c7A c7Wkv c7Akv
    [Json.str "2025-01-01T00:00"] [Json.str "2025-01-01T00:00"]
    rfl rfl rfl rfl rfl rfl

/-- Counterexample for C7 as stated: the weather hourly block has no
`relative_humidity_2m` field, yet the output still contains the `rh`
column (the claim says it is dropped). -/
theorem c7_counterexample :
    dictGet c7Wkv "relative_humidity_2m" = none ∧
    (runHourlyCore c7W c7A).map HourlyOut.names =
      .ok ["time", "temp", "rain", "rh", "wind", "feels_like", "wcode",
           "pm25", "pm10", "date"] ∧
    "rh" ∈ ["time", "temp", "rain", "rh", "wind", "feels_like", "wcode",
            "pm25", "pm10", "date"] :=
  ⟨rfl, rfl, by decide⟩

def c8W : Json := Json.obj [("hourly", Json.obj [])]

def c8Fs : FileState :=
  { rawWeather := some c8W, rawAir := some c8W, processedDaily := none }

def c8FsOut : FileState :=
  { rawWeather := some c8W, rawAir := some c8W,
    processedDaily :=
      some "date,temp_min,temp_max,total_rain,pm25_avg,pm10_avg,pm25_category" }

/-- Witness for C8 at a concrete file state. -/
theorem c8_transform_deterministic_witness :
    transformStep c8Fs = .ok c8FsOut ∧
    (c8FsOut.rawWeather = c8Fs.rawWeather ∧ c8FsOut.rawAir = c8Fs.rawAir ∧
     ∃ fs'', transformStep c8FsOut = .ok fs'' ∧
       fs''.processedDaily = c8FsOut.processedDaily) :=
  ⟨rfl, c8_transform_deterministic c8Fs c8FsOut rfl⟩

def c9Fetch : String → Except String (List ℕ) := fun c =>
  if c = "a" then .error "boom" else .ok [1]

/-- Witness for C9: city "a" fails, "b" and "c" succeed — the failure
is recorded, all three cities appear, and the comparison succeeds. -/
theorem c9_compare_isolation_witness :
    ((cityResults ["a", "b", "c"] c9Fetch).map (fun r => r.name) =
      ["a", "b", "c"]) ∧
    ({ name := "a", daily := [], error := some "boom" } :
      CityResult ℕ) ∈ cityResults ["a", "b", "c"] c9Fetch ∧
    compareRun ["a", "b", "c"] c9Fetch =
      .ok (cityResults ["a", "b", "c"] c9Fetch) :=
  ⟨(c9_compare_isolation ["a", "b", "c"] c9Fetch (by decide)).1,
   (c9_compare_isolation ["a", "b", "c"] c9Fetch (by decide)).2.1 "a"
     (by decide) "boom" rfl,
   (c9_compare_isolation ["a", "b", "c"] c9Fetch (by decide)).2.2.1.mpr
     (by decide)⟩

def c10Bundle : Bundle := { weather := Json.obj [], air := Json.obj [] }

/-- Witness for C10: an invalid day count writes nothing; a successful
run writes the four files from the fetched bundle. -/
theorem c10_fetch_atomicity_witness :
    (fetchRun ⟨20, false, true⟩
      { geocodeOk := true, netResult := .ok c10Bundle, sample := none }).1
        = [] ∧
    (fetchRun ⟨7, false, true⟩
      { geocodeOk := true, netResult := .ok c10Bundle, sample := none }).1
        = [(RawFile.weatherTs, c10Bundle.weather),
           (RawFile.airTs, c10Bundle.air),
           (RawFile.weatherLatest, c10Bundle.weather),
           (RawFile.airLatest, c10Bundle.air)] :=
  ⟨(c10_fetch_atomicity ⟨20, false, true⟩
      { geocodeOk := true, netResult := .ok c10Bundle, sample := none }).1
      ⟨FErr.invalidRange, rfl⟩,
   (c10_fetch_atomicity ⟨7, false, true⟩
      { geocodeOk := true, netResult := .ok c10Bundle, sample := none }).2
      c10Bundle rfl⟩

end ConcreteEval

end EtlWeather
